import Mathlib

/-!
Verification of `chain/ethereum/src/network_indexer/subgraph.rs`
(`check_subgraph_exists` and `create_subgraph`) in a shallow embedding.

The file under verification builds a metadata-operation batch (Asserts and
field-level Writes) for four linked entity kinds — the subgraph (owning)
record, the version record, the deployment record and the assignment
record — and submits it to the store's transactional commit entry point.
The entity descriptors (`SubgraphEntity::write_operations` and friends) and
the store's commit semantics live in the `graph` crate, outside the file;
they are modelled here from the spec's contracts (§4.2, §4.3, §6).
-/

/-- A block pointer: number and hash of a chain head position. -/
structure BlockPtr where
  number : Nat
  hash : String
deriving DecidableEq, Repr

/-- A parsed schema, as returned by the schema validator collaborator.
Modelled from the spec: `parse(raw_definition, owner_id) -> Schema`. -/
structure Schema where
  raw : String
  ownerId : String
deriving DecidableEq, Repr

/-- An opaque store error from a collaborator. -/
structure StoreError where
  msg : String
deriving DecidableEq, Repr

/-- The four entity kinds created by the protocol. -/
inductive EntityKind
  | subgraph
  | version
  | deployment
  | assignment
deriving DecidableEq, Repr

abbrev EntityId := String

/-- A value stored in one entity field. -/
inductive FieldValue
  | nullV
  | strV (s : String)
  | natV (n : Nat)
  | boolV (b : Bool)
  | ptrV (p : BlockPtr)
  | schemaV (sch : Schema)
deriving DecidableEq, Repr

/-- An entity's persisted attributes: an association list of field values. -/
abbrev Fields := List (String × FieldValue)

/-- `EntityFilter::new_equal(field, value)`: equality of a string field. -/
inductive EntityFilter
  | equalStr (field : String) (value : String)
deriving DecidableEq, Repr

/-- A query over one entity kind with an equality filter, as built by
`SubgraphEntity::query().filter(...)` etc. -/
structure EntityQuery where
  kind : EntityKind
  filter : EntityFilter
deriving DecidableEq, Repr

/-- A metadata operation: either an `AbortUnless` precondition (the query's
result set must equal `entity_ids`, here always `[]`) or a primitive
field-level write against one key (spec §4.2: descriptors emit field-level
upserts; §4.3: the batch is a heterogeneous list of Asserts and Writes). -/
inductive MetadataOperation
  | abortUnless (description : String) (query : EntityQuery) (entity_ids : List EntityId)
  | set (kind : EntityKind) (key : EntityId) (field : String) (value : FieldValue)
deriving DecidableEq, Repr

/-- The entity store's persisted state: a list of keyed entities.
Modelled from the spec: the store exclusively owns persisted entity state. -/
structure StoreState where
  entities : List (EntityKind × EntityId × Fields)
deriving DecidableEq, Repr

def emptyStore : StoreState := ⟨[]⟩

/-- Whether a field assignment satisfies an equality filter. -/
def matchesPair : EntityFilter → String → FieldValue → Bool
  | .equalStr fld val, f, v => f == fld && v == FieldValue.strV val

/-- Whether an entity's fields satisfy a filter. -/
def matchesFilter (fs : Fields) (flt : EntityFilter) : Bool :=
  fs.any (fun p => matchesPair flt p.1 p.2)

/-- Evaluate a query against the store: ids of matching entities.
Modelled from the spec: the descriptor's query expression tests for
existing records matching a field predicate. -/
def StoreState.runQuery (s : StoreState) (q : EntityQuery) : List EntityId :=
  (s.entities.filter (fun e => e.1 == q.kind && matchesFilter e.2.2 q.filter)).map
    (fun e => e.2.1)

/-- Look up one entity by kind and key. -/
def StoreState.lookup (s : StoreState) (k : EntityKind) (id : EntityId) : Option Fields :=
  (s.entities.find? (fun e => e.1 == k && e.2.1 == id)).map (fun e => e.2.2)

/-- Read one field of one entity. -/
def StoreState.fieldOf (s : StoreState) (k : EntityKind) (id : EntityId) (f : String) :
    Option FieldValue :=
  (s.lookup k id).bind (fun fs => (fs.find? (fun p => p.1 == f)).map (fun p => p.2))

/-- Upsert one field into an entity's field list: replace the first
occurrence or append. -/
def upsertField : Fields → String → FieldValue → Fields
  | [], f, v => [(f, v)]
  | p :: rest, f, v =>
      if p.1 == f then (f, v) :: rest else p :: upsertField rest f v

/-- Upsert one field of one keyed entity within the entity list: update the
first entity with that kind and key, or append a fresh entity. -/
def setEntity : List (EntityKind × EntityId × Fields) → EntityKind → EntityId →
    String → FieldValue → List (EntityKind × EntityId × Fields)
  | [], k, id, f, v => [(k, id, [(f, v)])]
  | e :: rest, k, id, f, v =>
      if e.1 == k && e.2.1 == id then (e.1, e.2.1, upsertField e.2.2 f v) :: rest
      else e :: setEntity rest k id f v

/-- Apply one field-level write: update the entity if present, create it
otherwise. Modelled from the spec: Writes are primitive field upserts
against a specific key. -/
def StoreState.setField (s : StoreState) (k : EntityKind) (id : EntityId)
    (f : String) (v : FieldValue) : StoreState :=
  ⟨setEntity s.entities k id f v⟩

/-- Apply all Writes of a batch in order (Asserts are no-ops here). -/
def applyWrites (s : StoreState) : List MetadataOperation → StoreState
  | [] => s
  | .abortUnless _ _ _ :: rest => applyWrites s rest
  | .set k id f v :: rest => applyWrites (s.setField k id f v) rest

/-- The description of the first failing Assert of a batch, evaluated
against the pre-state. Modelled from the spec: the store evaluates all
Asserts logically before any Write is considered committed; a failing
Assert surfaces its human-readable description. -/
def firstFailedAssert (s : StoreState) : List MetadataOperation → Option String
  | [] => none
  | .abortUnless d q ids :: rest =>
      if s.runQuery q == ids then firstFailedAssert s rest else some d
  | .set _ _ _ _ :: rest => firstFailedAssert s rest

/-- How a commit can fail. -/
inductive CommitErr
  | preconditionViolated (description : String)
  | storeFailure
deriving DecidableEq, Repr

/-- `create_subgraph_deployment(schema, ops)`: the store's transactional
commit entry point. Modelled from the spec: `commit` evaluates all Asserts
and applies all Writes atomically and in isolation; on any failure
(precondition violation or injected underlying write failure `ioFail`)
no record is created or modified. -/
def commitBatch (s : StoreState) (ops : List MetadataOperation) (ioFail : Bool) :
    Option CommitErr × StoreState :=
  match firstFailedAssert s ops with
  | some d => (some (CommitErr.preconditionViolated d), s)
  | none => if ioFail then (some CommitErr.storeFailure, s) else (none, applyWrites s ops)

/-- Encode a nullable entity reference as a field value. -/
def refOrNull : Option EntityId → FieldValue
  | none => FieldValue.nullV
  | some v => FieldValue.strV v

/-- Encode a nullable block pointer as a field value. -/
def ptrOrNull : Option BlockPtr → FieldValue
  | none => FieldValue.nullV
  | some p => FieldValue.ptrV p

/-- `SubgraphEntity::query()`, with a filter attached. -/
def SubgraphEntity.query (f : EntityFilter) : EntityQuery := ⟨EntityKind.subgraph, f⟩

/-- `SubgraphVersionEntity::query()`, with a filter attached. -/
def SubgraphVersionEntity.query (f : EntityFilter) : EntityQuery := ⟨EntityKind.version, f⟩

/-- `SubgraphDeploymentEntity::query()`, with a filter attached. -/
def SubgraphDeploymentEntity.query (f : EntityFilter) : EntityQuery := ⟨EntityKind.deployment, f⟩

/-- Modelled from the spec: `SubgraphEntity::new(name, current, pending,
created_at).write_operations(key)` — the OwningRecord descriptor's pure
mapping from an in-memory entity value plus target key to field upserts
(attributes `name`, `current_version_ref`, `pending_version_ref`,
`created_at`; entities carry their key as the `id` field). -/
def SubgraphEntity.write_operations (name : String)
    (currentVersion pendingVersion : Option EntityId) (created_at : Nat)
    (key : EntityId) : List MetadataOperation :=
  [ MetadataOperation.set EntityKind.subgraph key "id" (FieldValue.strV key),
    MetadataOperation.set EntityKind.subgraph key "name" (FieldValue.strV name),
    MetadataOperation.set EntityKind.subgraph key "currentVersion" (refOrNull currentVersion),
    MetadataOperation.set EntityKind.subgraph key "pendingVersion" (refOrNull pendingVersion),
    MetadataOperation.set EntityKind.subgraph key "createdAt" (FieldValue.natV created_at) ]

/-- Modelled from the spec: `SubgraphEntity::update_pending_version_operations`
— upsert of the OwningRecord's `pending_version_ref` field. -/
def SubgraphEntity.update_pending_version_operations (key : EntityId)
    (v : Option EntityId) : List MetadataOperation :=
  [MetadataOperation.set EntityKind.subgraph key "pendingVersion" (refOrNull v)]

/-- Modelled from the spec: `SubgraphEntity::update_current_version_operations`
— upsert of the OwningRecord's `current_version_ref` field. -/
def SubgraphEntity.update_current_version_operations (key : EntityId)
    (v : Option EntityId) : List MetadataOperation :=
  [MetadataOperation.set EntityKind.subgraph key "currentVersion" (refOrNull v)]

/-- Modelled from the spec: `SubgraphVersionEntity::new(subgraph, deployment,
created_at).write_operations(key)` — the VersionRecord descriptor
(attributes `owner_ref`, `deployment_ref`, `created_at`). -/
def SubgraphVersionEntity.write_operations (subgraphKey : EntityId)
    (deploymentId : String) (created_at : Nat) (key : EntityId) :
    List MetadataOperation :=
  [ MetadataOperation.set EntityKind.version key "id" (FieldValue.strV key),
    MetadataOperation.set EntityKind.version key "subgraph" (FieldValue.strV subgraphKey),
    MetadataOperation.set EntityKind.version key "deployment" (FieldValue.strV deploymentId),
    MetadataOperation.set EntityKind.version key "createdAt" (FieldValue.natV created_at) ]

/-- The fake manifest constructed by `create_subgraph`: location, fixed spec
version, the built-in schema, empty data-source and template lists. -/
structure SubgraphManifest where
  id : String
  location : String
  spec_version : String
  description : Option String
  repository : Option String
  schema : Schema
  data_sources : List Unit
  templates : List Unit
deriving DecidableEq, Repr

/-- Modelled from the spec: `SubgraphDeploymentEntity::new(manifest, failed,
synced, None, chain_head_block).create_operations(key)` — the
DeploymentRecord descriptor (attributes `manifest_location`, `schema`,
`chain_head_pointer_at_creation`, `synced`, `failed`). -/
def SubgraphDeploymentEntity.create_operations (manifest : SubgraphManifest)
    (failed synced : Bool) (chain_head_block : Option BlockPtr) (key : EntityId) :
    List MetadataOperation :=
  [ MetadataOperation.set EntityKind.deployment key "id" (FieldValue.strV key),
    MetadataOperation.set EntityKind.deployment key "manifestLocation"
      (FieldValue.strV manifest.location),
    MetadataOperation.set EntityKind.deployment key "schema"
      (FieldValue.schemaV manifest.schema),
    MetadataOperation.set EntityKind.deployment key "chainHeadBlock"
      (ptrOrNull chain_head_block),
    MetadataOperation.set EntityKind.deployment key "synced" (FieldValue.boolV synced),
    MetadataOperation.set EntityKind.deployment key "failed" (FieldValue.boolV failed) ]

/-- Modelled from the spec: `SubgraphDeploymentAssignmentEntity::new(node_id)
.write_operations(key)` — the AssignmentRecord descriptor (attribute
`node_id`, keyed by the deployment id). -/
def SubgraphDeploymentAssignmentEntity.write_operations (node_id : String)
    (key : EntityId) : List MetadataOperation :=
  [ MetadataOperation.set EntityKind.assignment key "id" (FieldValue.strV key),
    MetadataOperation.set EntityKind.assignment key "nodeId" (FieldValue.strV node_id) ]

/-- The fake manifest built at lines 90–100 of the source. -/
def fakeManifest (subgraph_name subgraph_id : String) (schema : Schema) :
    SubgraphManifest :=
  ⟨subgraph_id, subgraph_name, "0.0.1", none, none, schema, [], []⟩

/-- The full operation batch built by `create_subgraph` (lines 30–118),
given the values the collaborators returned: the clock reading, the freshly
generated subgraph entity id, the parsed built-in schema, the chain head
block and the validated node id. -/
def createOps (subgraph_name subgraph_id : String) (created_at : Nat)
    (subgraph_entity_id : EntityId) (schema : Schema)
    (chain_head_block : Option BlockPtr) (node_id : String) :
    List MetadataOperation :=
  [MetadataOperation.abortUnless "Subgraph entity should not exist"
      (SubgraphEntity.query (EntityFilter.equalStr "name" subgraph_name)) []]
  ++ SubgraphEntity.write_operations subgraph_name none none created_at subgraph_entity_id
  ++ [MetadataOperation.abortUnless "Subgraph version should not exist"
      (SubgraphVersionEntity.query (EntityFilter.equalStr "id" subgraph_id)) []]
  ++ SubgraphVersionEntity.write_operations subgraph_entity_id subgraph_id created_at
      subgraph_id
  ++ SubgraphEntity.update_pending_version_operations subgraph_entity_id none
  ++ SubgraphEntity.update_current_version_operations subgraph_entity_id
      (some subgraph_id)
  ++ [MetadataOperation.abortUnless "Subgraph deployment entity must not exist"
      (SubgraphDeploymentEntity.query (EntityFilter.equalStr "id" subgraph_id)) []]
  ++ SubgraphDeploymentEntity.create_operations
      (fakeManifest subgraph_name subgraph_id schema) false false chain_head_block
      subgraph_id
  ++ SubgraphDeploymentAssignmentEntity.write_operations node_id subgraph_id

/-- How one `create_subgraph` invocation can fail with an error return. -/
inductive CreateErr
  | chainHeadErr (e : StoreError)
  | preconditionViolated (description : String)
  | storeFailure
deriving DecidableEq, Repr

/-- The observable outcome of one `create_subgraph` invocation: a Rust
panic, an error return, or a successful commit. -/
inductive CreateOutcome
  | panicked (msg : String)
  | failed (e : CreateErr)
  | committed
deriving DecidableEq, Repr

/-- `create_subgraph` (lines 22–125). Collaborator results are passed in:
`clockSecs` is `SystemTime::now().duration_since(UNIX_EPOCH)` in seconds
(`none` when the clock reads before the epoch — the source unwraps, i.e.
panics), `subgraph_entity_id` is `generate_entity_id()`, `builtinSchema` is
`Schema::parse` on the built-in definition (`none` means parse failure —
the source expects, i.e. panics), `builtinNodeId` is `NodeId::new("__builtin")`
(`none` means rejection — the source unwraps, i.e. panics), `chainHeadPtr`
is `store.chain_head_ptr()`, and `ioFail` injects an underlying write
failure into the final commit. Returns the outcome and the store state
afterwards. -/
def create_subgraph (s : StoreState) (clockSecs : Option Nat)
    (subgraph_entity_id : EntityId) (builtinSchema : Option Schema)
    (nodeIdOk : Bool) (chainHeadPtr : Except StoreError (Option BlockPtr))
    (subgraph_name subgraph_id : String) (ioFail : Bool) :
    CreateOutcome × StoreState :=
  match clockSecs with
  | none => (CreateOutcome.panicked "called Result.unwrap on an Err value", s)
  | some created_at =>
    match builtinSchema with
    | none => (CreateOutcome.panicked "valid Ethereum network subgraph schema", s)
    | some schema =>
      match chainHeadPtr with
      | Except.error e => (CreateOutcome.failed (CreateErr.chainHeadErr e), s)
      | Except.ok chain_head_block =>
        match nodeIdOk with
        | false => (CreateOutcome.panicked "called Result.unwrap on an Err value", s)
        | true =>
          let ops := createOps subgraph_name subgraph_id created_at
            subgraph_entity_id schema chain_head_block "__builtin"
          match commitBatch s ops ioFail with
          | (some (CommitErr.preconditionViolated d), s2) =>
              (CreateOutcome.failed (CreateErr.preconditionViolated d), s2)
          | (some CommitErr.storeFailure, s2) =>
              (CreateOutcome.failed CreateErr.storeFailure, s2)
          | (none, s2) => (CreateOutcome.committed, s2)

/-- `SubgraphDeploymentEntity::key(id)`: the lookup key of a deployment. -/
def SubgraphDeploymentEntity.key (subgraph_id : String) : EntityKind × EntityId :=
  (EntityKind.deployment, subgraph_id)

/-- `store.get(key)`: read one entity; `readFault` injects an underlying
store read failure. Modelled from the spec:
`get(key) -> Option<Entity> | StoreError`. -/
def Store.get (s : StoreState) (readFault : Option StoreError)
    (key : EntityKind × EntityId) : Except StoreError (Option Fields) :=
  match readFault with
  | some e => Except.error e
  | none => Except.ok (s.lookup key.1 key.2)

/-- `check_subgraph_exists` (lines 7–20): maps the store's `get` on the
deployment key through `map_err` and `map(|entity| entity.map_or(false, ...))`. -/
def check_subgraph_exists (s : StoreState) (readFault : Option StoreError)
    (subgraph_id : String) : Except StoreError Bool :=
  (Store.get s readFault (SubgraphDeploymentEntity.key subgraph_id)).map
    (fun entity => entity.elim false (fun _ => true))

/-- The query guarded by the first Assert: an OwningRecord with this name. -/
def nameQuery (n : String) : EntityQuery :=
  SubgraphEntity.query (EntityFilter.equalStr "name" n)

/-- The query guarded by the second Assert: a VersionRecord with this id. -/
def versionQuery (i : String) : EntityQuery :=
  SubgraphVersionEntity.query (EntityFilter.equalStr "id" i)

/-- The query guarded by the third Assert: a DeploymentRecord with this id. -/
def deploymentQuery (i : String) : EntityQuery :=
  SubgraphDeploymentEntity.query (EntityFilter.equalStr "id" i)
/-- Whether an operation is an Assert (`AbortUnless`). -/
def MetadataOperation.isAssert : MetadataOperation → Bool
  | .abortUnless _ _ _ => true
  | .set _ _ _ _ => false

/-! ### Derived observations on store states -/

/-- Number of entities stored under one kind and key. -/
def StoreState.countOf (s : StoreState) (k : EntityKind) (id : EntityId) : Nat :=
  (s.entities.filter (fun e => e.1 == k && e.2.1 == id)).length

/-- Whether some entity is stored under one kind and key. -/
def StoreState.hasEntity (s : StoreState) (k : EntityKind) (id : EntityId) : Bool :=
  s.entities.any (fun e => e.1 == k && e.2.1 == id)

/-- Read one field from a field list. -/
def fieldsLookup (fs : Fields) (f : String) : Option FieldValue :=
  (fs.find? (fun p => p.1 == f)).map (fun p => p.2)

/-- Whether a batch contains a Write against the given kind and key. -/
def writesKey (ops : List MetadataOperation) (k : EntityKind) (id : EntityId) : Bool :=
  ops.any (fun op => match op with
    | .set k2 id2 _ _ => k2 == k && id2 == id
    | .abortUnless _ _ _ => false)

/-- The value of the last Write in a batch against a given kind, key and
field, if any. -/
def lastWrite : List MetadataOperation → EntityKind → EntityId → String →
    Option FieldValue
  | [], _, _, _ => none
  | op :: rest, k, id, f =>
      match lastWrite rest k id f with
      | some v => some v
      | none =>
          match op with
          | .set k2 id2 f2 v => if k2 == k && id2 == id && f2 == f then some v else none
          | .abortUnless _ _ _ => none

/-! ### Field and entity update lemmas -/

theorem find?_upsertField_same (fs : Fields) (f : String) (v : FieldValue) :
    (upsertField fs f v).find? (fun p => p.1 == f) = some (f, v) := by
  induction fs with
  | nil => simp [upsertField, List.find?]
  | cons p rest ih =>
      by_cases h : p.1 = f
      · simp [upsertField, h, List.find?]
      · simp only [upsertField, beq_iff_eq, h, if_false]
        rw [List.find?_cons_of_neg]
        · exact ih
        · simp [h]

theorem find?_upsertField_ne (fs : Fields) (f f2 : String) (v : FieldValue)
    (h : f2 ≠ f) :
    (upsertField fs f v).find? (fun p => p.1 == f2) =
      fs.find? (fun p => p.1 == f2) := by
  induction fs with
  | nil =>
      simp only [upsertField]
      rw [List.find?_cons_of_neg _ (by simp [Ne.symm h])]
  | cons p rest ih =>
      by_cases hp : p.1 = f
      · simp only [upsertField, beq_iff_eq, hp, if_true]
        rw [List.find?_cons_of_neg _ (by simp [Ne.symm h]),
          List.find?_cons_of_neg _ (by simp [hp, Ne.symm h])]
      · simp only [upsertField, beq_iff_eq, hp, if_false]
        by_cases hq : p.1 = f2
        · rw [List.find?_cons_of_pos _ (by simp [hq]),
            List.find?_cons_of_pos _ (by simp [hq])]
        · rw [List.find?_cons_of_neg _ (by simp [hq]),
            List.find?_cons_of_neg _ (by simp [hq])]
          exact ih

theorem setEntity_cons (e : EntityKind × EntityId × Fields)
    (rest : List (EntityKind × EntityId × Fields)) (k : EntityKind)
    (id : EntityId) (f : String) (v : FieldValue) :
    setEntity (e :: rest) k id f v =
      if (e.1 == k && e.2.1 == id) = true then
        (e.1, e.2.1, upsertField e.2.2 f v) :: rest
      else e :: setEntity rest k id f v := rfl

theorem fieldOf_setField_same (s : StoreState) (k : EntityKind) (id : EntityId)
    (f : String) (v : FieldValue) :
    (s.setField k id f v).fieldOf k id f = some v := by
  obtain ⟨l⟩ := s
  induction l with
  | nil =>
      simp [StoreState.setField, setEntity, StoreState.fieldOf, StoreState.lookup,
        List.find?]
  | cons e rest ih =>
      simp only [StoreState.setField]
      cases hc : (e.1 == k && e.2.1 == id) with
      | true =>
          rw [setEntity_cons, if_pos hc]
          simp [StoreState.fieldOf, StoreState.lookup, List.find?_cons, hc,
            find?_upsertField_same]
      | false =>
          rw [setEntity_cons, if_neg (by simp [hc])]
          simp only [StoreState.fieldOf, StoreState.lookup, List.find?_cons]
          simp only [hc]
          simpa [StoreState.setField, StoreState.fieldOf, StoreState.lookup] using ih

theorem fieldOf_setField_ne_key (s : StoreState) (k k2 : EntityKind)
    (id id2 : EntityId) (f f2 : String) (v : FieldValue)
    (h : ¬(k = k2 ∧ id = id2)) :
    (s.setField k id f v).fieldOf k2 id2 f2 = s.fieldOf k2 id2 f2 := by
  have hpred : (k == k2 && id == id2) = false := by
    rcases Bool.eq_false_or_eq_true (k == k2 && id == id2) with hb | hb
    · exact absurd (by simpa using hb) h
    · exact hb
  obtain ⟨l⟩ := s
  induction l with
  | nil =>
      simp only [StoreState.setField, setEntity, StoreState.fieldOf, StoreState.lookup]
      simp [List.find?_cons, hpred, List.find?]
  | cons e rest ih =>
      simp only [StoreState.setField]
      cases hc : (e.1 == k && e.2.1 == id) with
      | true =>
          have hk : e.1 = k ∧ e.2.1 = id := by simpa using hc
          have h2 : (e.1 == k2 && e.2.1 == id2) = false := by
            rcases hk with ⟨hka, hkb⟩
            rw [hka, hkb]
            exact hpred
          rw [setEntity_cons, if_pos hc]
          simp [StoreState.fieldOf, StoreState.lookup, List.find?_cons, h2]
      | false =>
          rw [setEntity_cons, if_neg (by simp [hc])]
          cases h2 : (e.1 == k2 && e.2.1 == id2) with
          | true =>
              simp [StoreState.fieldOf, StoreState.lookup, List.find?_cons, h2]
          | false =>
              simp only [StoreState.fieldOf, StoreState.lookup, List.find?_cons]
              simp only [h2]
              simpa [StoreState.setField, StoreState.fieldOf, StoreState.lookup] using ih

theorem fieldOf_setField_ne_field (s : StoreState) (k : EntityKind) (id : EntityId)
    (f f2 : String) (v : FieldValue) (h : f2 ≠ f) :
    (s.setField k id f v).fieldOf k id f2 = s.fieldOf k id f2 := by
  obtain ⟨l⟩ := s
  induction l with
  | nil =>
      have hf : (f == f2) = false := by simpa using Ne.symm h
      simp only [StoreState.setField, setEntity, StoreState.fieldOf, StoreState.lookup]
      simp [List.find?_cons, List.find?, hf]
  | cons e rest ih =>
      simp only [StoreState.setField]
      cases hc : (e.1 == k && e.2.1 == id) with
      | true =>
          rw [setEntity_cons, if_pos hc]
          simp [StoreState.fieldOf, StoreState.lookup, List.find?_cons, hc,
            find?_upsertField_ne _ _ _ _ h]
      | false =>
          rw [setEntity_cons, if_neg (by simp [hc])]
          simp only [StoreState.fieldOf, StoreState.lookup, List.find?_cons]
          simp only [hc]
          simpa [StoreState.setField, StoreState.fieldOf, StoreState.lookup] using ih

theorem fieldOf_setField_ne (s : StoreState) (k k2 : EntityKind)
    (id id2 : EntityId) (f f2 : String) (v : FieldValue)
    (h : (k == k2 && id == id2 && f == f2) = false) :
    (s.setField k id f v).fieldOf k2 id2 f2 = s.fieldOf k2 id2 f2 := by
  by_cases hk : k = k2 ∧ id = id2
  · rcases hk with ⟨hk1, hk2⟩
    subst hk1; subst hk2
    have hf : f2 ≠ f := by
      intro hc; subst hc; simp at h
    exact fieldOf_setField_ne_field s k id f f2 v hf
  · exact fieldOf_setField_ne_key s k k2 id id2 f f2 v hk

theorem lastWrite_abort_cons (d : String) (q : EntityQuery) (ids : List EntityId)
    (rest : List MetadataOperation) (k : EntityKind) (id : EntityId) (f : String) :
    lastWrite (MetadataOperation.abortUnless d q ids :: rest) k id f =
      lastWrite rest k id f := by
  cases h : lastWrite rest k id f <;> simp [lastWrite, h]

theorem fieldOf_applyWrites_of_lastWrite_none (ops : List MetadataOperation)
    (s : StoreState) (k : EntityKind) (id : EntityId) (f : String)
    (h : lastWrite ops k id f = none) :
    (applyWrites s ops).fieldOf k id f = s.fieldOf k id f := by
  induction ops generalizing s with
  | nil => rfl
  | cons op rest ih =>
      cases op with
      | abortUnless d q ids =>
          rw [lastWrite_abort_cons] at h
          simpa [applyWrites] using ih s h
      | set k2 id2 f2 v =>
          cases hrest : lastWrite rest k id f with
          | some w => simp [lastWrite, hrest] at h
          | none =>
              have hcond : (k2 == k && id2 == id && f2 == f) = false := by
                rcases Bool.eq_false_or_eq_true (k2 == k && id2 == id && f2 == f)
                  with hb | hb
                · simp [lastWrite, hrest, hb] at h
                · exact hb
              simp only [applyWrites]
              rw [ih _ hrest]
              exact fieldOf_setField_ne s k2 k id2 id f2 f v hcond

theorem fieldOf_applyWrites_of_lastWrite_some (ops : List MetadataOperation)
    (s : StoreState) (k : EntityKind) (id : EntityId) (f : String) (v : FieldValue)
    (h : lastWrite ops k id f = some v) :
    (applyWrites s ops).fieldOf k id f = some v := by
  induction ops generalizing s with
  | nil => simp [lastWrite] at h
  | cons op rest ih =>
      cases op with
      | abortUnless d q ids =>
          rw [lastWrite_abort_cons] at h
          simpa [applyWrites] using ih s h
      | set k2 id2 f2 w =>
          cases hrest : lastWrite rest k id f with
          | some u =>
              have hu : u = v := by simpa [lastWrite, hrest] using h
              subst hu
              simpa [applyWrites] using ih _ hrest
          | none =>
              have hcond : (k2 == k && id2 == id && f2 == f) = true ∧ w = v := by
                rcases Bool.eq_false_or_eq_true (k2 == k && id2 == id && f2 == f)
                  with hb | hb
                · exact ⟨hb, by simpa [lastWrite, hrest, hb] using h⟩
                · simp [lastWrite, hrest, hb] at h
              obtain ⟨hb, hw⟩ := hcond
              have hk : (k2 = k ∧ id2 = id) ∧ f2 = f := by simpa using hb
              obtain ⟨⟨hk1, hk2⟩, hk3⟩ := hk
              subst hk1; subst hk2; subst hk3; subst hw
              simp only [applyWrites]
              rw [fieldOf_applyWrites_of_lastWrite_none rest _ k2 id2 f2 hrest]
              exact fieldOf_setField_same s k2 id2 f2 w

theorem countOf_cons (e : EntityKind × EntityId × Fields)
    (l : List (EntityKind × EntityId × Fields)) (k2 : EntityKind) (id2 : EntityId) :
    StoreState.countOf ⟨e :: l⟩ k2 id2 =
      StoreState.countOf ⟨l⟩ k2 id2 +
        (if (e.1 == k2 && e.2.1 == id2) = true then 1 else 0) := by
  cases h2 : (e.1 == k2 && e.2.1 == id2) <;>
    simp [StoreState.countOf, List.filter_cons, h2]

theorem hasEntity_true_iff (s : StoreState) (k : EntityKind) (id : EntityId) :
    s.hasEntity k id = true ↔ s.countOf k id ≠ 0 := by
  obtain ⟨l⟩ := s
  induction l with
  | nil => simp [StoreState.hasEntity, StoreState.countOf]
  | cons e rest ih =>
      rw [countOf_cons]
      cases hc : (e.1 == k && e.2.1 == id) with
      | true => simp [StoreState.hasEntity, List.any_cons, hc]
      | false =>
          simp only [StoreState.hasEntity, List.any_cons, hc, Bool.false_or, if_neg]
          simpa [StoreState.hasEntity] using ih

theorem countOf_setField (s : StoreState) (k : EntityKind) (id : EntityId)
    (f : String) (v : FieldValue) (k2 : EntityKind) (id2 : EntityId) :
    (s.setField k id f v).countOf k2 id2 =
      if s.hasEntity k id = true then s.countOf k2 id2
      else s.countOf k2 id2 + (if (k == k2 && id == id2) = true then 1 else 0) := by
  obtain ⟨l⟩ := s
  induction l with
  | nil =>
      cases hb : (k == k2 && id == id2) with
      | true =>
          simp [StoreState.setField, setEntity, StoreState.countOf,
            StoreState.hasEntity, List.filter_cons, hb]
      | false =>
          simp [StoreState.setField, setEntity, StoreState.countOf,
            StoreState.hasEntity, List.filter_cons, hb]
  | cons e rest ih =>
      simp only [StoreState.setField] at ih ⊢
      cases hc : (e.1 == k && e.2.1 == id) with
      | true =>
          have hhas : StoreState.hasEntity ⟨e :: rest⟩ k id = true := by
            simp [StoreState.hasEntity, List.any_cons, hc]
          rw [setEntity_cons, if_pos hc, if_pos hhas]
          rw [show (StoreState.countOf ⟨(e.1, e.2.1, upsertField e.2.2 f v) :: rest⟩
              k2 id2) = StoreState.countOf ⟨rest⟩ k2 id2 +
              (if (e.1 == k2 && e.2.1 == id2) = true then 1 else 0) from
            countOf_cons _ _ _ _, countOf_cons]
      | false =>
          have hhas : StoreState.hasEntity ⟨e :: rest⟩ k id =
              StoreState.hasEntity ⟨rest⟩ k id := by
            simp [StoreState.hasEntity, List.any_cons, hc]
          rw [setEntity_cons, if_neg (by simp [hc]), hhas]
          rw [countOf_cons, countOf_cons, ih]
          cases hr : StoreState.hasEntity ⟨rest⟩ k id with
          | true => simp
          | false =>
              simp only [Bool.false_eq_true, if_false]
              omega

theorem countOf_applyWrites (ops : List MetadataOperation) (s : StoreState)
    (k : EntityKind) (id : EntityId) :
    (applyWrites s ops).countOf k id =
      if (writesKey ops k id && decide (s.countOf k id = 0)) = true then 1
      else s.countOf k id := by
  induction ops generalizing s with
  | nil => simp [applyWrites, writesKey]
  | cons op rest ih =>
      cases op with
      | abortUnless d q ids =>
          simp only [applyWrites]
          rw [ih s]
          simp [writesKey, List.any_cons]
      | set k2 id2 f v =>
          simp only [applyWrites]
          rw [ih (s.setField k2 id2 f v)]
          have hw : writesKey (MetadataOperation.set k2 id2 f v :: rest) k id =
              ((k2 == k && id2 == id) || writesKey rest k id) := by
            simp [writesKey, List.any_cons]
          rw [hw]
          have hcount := countOf_setField s k2 id2 f v k id
          cases hb : (k2 == k && id2 == id) with
          | true =>
              rw [hb] at hcount
              by_cases h0 : s.countOf k id = 0
              · have hne : s.hasEntity k2 id2 = false := by
                  have hkk : k2 = k ∧ id2 = id := by simpa using hb
                  rcases hkk with ⟨hkk1, hkk2⟩
                  subst hkk1; subst hkk2
                  rcases Bool.eq_false_or_eq_true (s.hasEntity k2 id2) with hbb | hbb
                  · exact absurd h0 ((hasEntity_true_iff s k2 id2).mp hbb)
                  · exact hbb
                rw [if_neg (by simp [hne])] at hcount
                rw [hcount, h0]
                simp
              · have hyes : s.hasEntity k2 id2 = true := by
                  have hkk : k2 = k ∧ id2 = id := by simpa using hb
                  rcases hkk with ⟨hkk1, hkk2⟩
                  subst hkk1; subst hkk2
                  exact (hasEntity_true_iff s k2 id2).mpr h0
                rw [if_pos hyes] at hcount
                rw [hcount]
                simp [h0]
          | false =>
              rw [hb] at hcount
              have hsame : (s.setField k2 id2 f v).countOf k id = s.countOf k id := by
                rcases Bool.eq_false_or_eq_true (s.hasEntity k2 id2) with hbb | hbb
                · rw [if_pos hbb] at hcount
                  exact hcount
                · rw [if_neg (by simp [hbb])] at hcount
                  simpa using hcount
              rw [hsame]
              simp

theorem runQuery_cons (e : EntityKind × EntityId × Fields)
    (l : List (EntityKind × EntityId × Fields)) (q : EntityQuery) :
    StoreState.runQuery ⟨e :: l⟩ q =
      (if (e.1 == q.kind && matchesFilter e.2.2 q.filter) = true then [e.2.1] else [])
        ++ StoreState.runQuery ⟨l⟩ q := by
  cases hp : (e.1 == q.kind && matchesFilter e.2.2 q.filter) <;>
    simp [StoreState.runQuery, List.filter_cons, hp]

theorem matchesFilter_upsertField (fs : Fields) (flt : EntityFilter) (f : String)
    (v : FieldValue) (h : matchesFilter fs flt = false)
    (hp : matchesPair flt f v = false) :
    matchesFilter (upsertField fs f v) flt = false := by
  induction fs with
  | nil => simp [upsertField, matchesFilter, List.any_cons, hp]
  | cons p rest ih =>
      simp only [matchesFilter, List.any_cons, Bool.or_eq_false_iff] at h
      cases hc : (p.1 == f) with
      | true =>
          simp only [upsertField, hc, if_pos]
          simp only [matchesFilter, List.any_cons, Bool.or_eq_false_iff]
          exact ⟨by simpa using hp, h.2⟩
      | false =>
          simp only [upsertField, hc]
          simp only [Bool.false_eq_true, if_false]
          simp only [matchesFilter, List.any_cons, Bool.or_eq_false_iff]
          refine ⟨h.1, ?_⟩
          exact ih h.2

theorem runQuery_setField_nil (s : StoreState) (q : EntityQuery) (k : EntityKind)
    (id : EntityId) (f : String) (v : FieldValue)
    (h : s.runQuery q = [])
    (hcond : (k == q.kind && matchesPair q.filter f v) = false) :
    (s.setField k id f v).runQuery q = [] := by
  obtain ⟨l⟩ := s
  induction l with
  | nil =>
      simp only [StoreState.setField, setEntity]
      rw [runQuery_cons]
      have : (((k, id, [(f, v)]) : EntityKind × EntityId × Fields).1 == q.kind &&
          matchesFilter [(f, v)] q.filter) = false := by
        simpa [matchesFilter, List.any_cons] using hcond
      simp [this, StoreState.runQuery]
  | cons e rest ih =>
      rw [show StoreState.runQuery ⟨e :: rest⟩ q =
          (if (e.1 == q.kind && matchesFilter e.2.2 q.filter) = true then [e.2.1]
            else []) ++ StoreState.runQuery ⟨rest⟩ q from runQuery_cons e rest q] at h
      have hsplit : (e.1 == q.kind && matchesFilter e.2.2 q.filter) = false ∧
          StoreState.runQuery ⟨rest⟩ q = [] := by
        cases hp : (e.1 == q.kind && matchesFilter e.2.2 q.filter) with
        | true => rw [hp] at h; simp at h
        | false => rw [hp] at h; simpa using h
      obtain ⟨hpe, hrest⟩ := hsplit
      simp only [StoreState.setField] at ih ⊢
      cases hc : (e.1 == k && e.2.1 == id) with
      | true =>
          rw [setEntity_cons, if_pos hc, runQuery_cons]
          cases hq : (e.1 == q.kind) with
          | false => simp [hq, hrest]
          | true =>
              have hkq : (k == q.kind) = true := by
                have h1 : e.1 = k := by simpa using (by simpa using hc : e.1 = k ∧ e.2.1 = id).1
                rw [← h1]; exact hq
              have hmp : matchesPair q.filter f v = false := by
                rcases Bool.eq_false_or_eq_true (matchesPair q.filter f v) with hm | hm
                · rw [hkq, hm] at hcond; simp at hcond
                · exact hm
              have hmf : matchesFilter e.2.2 q.filter = false := by
                rcases Bool.eq_false_or_eq_true (matchesFilter e.2.2 q.filter) with hm | hm
                · rw [hq, hm] at hpe; simp at hpe
                · exact hm
              have := matchesFilter_upsertField e.2.2 q.filter f v hmf hmp
              simp [hq, this, hrest]
      | false =>
          rw [setEntity_cons, if_neg (by simp [hc]), runQuery_cons]
          simp [hpe, ih hrest]

theorem runQuery_applyWrites_nil (ops : List MetadataOperation) (s : StoreState)
    (q : EntityQuery) (h : s.runQuery q = [])
    (hops : ∀ k id f v, MetadataOperation.set k id f v ∈ ops →
      (k == q.kind && matchesPair q.filter f v) = false) :
    (applyWrites s ops).runQuery q = [] := by
  induction ops generalizing s with
  | nil => simpa [applyWrites] using h
  | cons op rest ih =>
      cases op with
      | abortUnless d qq ids =>
          simp only [applyWrites]
          exact ih s h (fun k id f v hm => hops k id f v (List.mem_cons_of_mem _ hm))
      | set k id f v =>
          simp only [applyWrites]
          refine ih _ ?_ (fun k2 id2 f2 v2 hm => hops k2 id2 f2 v2 (List.mem_cons_of_mem _ hm))
          exact runQuery_setField_nil s q k id f v h
            (hops k id f v (List.mem_cons_self _ _))

theorem runQuery_ne_nil_of_mem (s : StoreState) (q : EntityQuery)
    (e : EntityKind × EntityId × Fields) (he : e ∈ s.entities)
    (hk : (e.1 == q.kind) = true) (hm : matchesFilter e.2.2 q.filter = true) :
    s.runQuery q ≠ [] := by
  have hmem : e ∈ s.entities.filter
      (fun e => e.1 == q.kind && matchesFilter e.2.2 q.filter) :=
    List.mem_filter.mpr ⟨he, by simp [hk, hm]⟩
  have : e.2.1 ∈ s.runQuery q := by
    simp only [StoreState.runQuery]
    exact List.mem_map_of_mem _ hmem
  exact List.ne_nil_of_mem this

theorem fieldOf_gives_match (s : StoreState) (k : EntityKind) (id : EntityId)
    (f val : String) (h : s.fieldOf k id f = some (FieldValue.strV val)) :
    ∃ e ∈ s.entities, (e.1 == k) = true ∧ e.2.1 = id ∧
      matchesFilter e.2.2 (EntityFilter.equalStr f val) = true := by
  simp only [StoreState.fieldOf, StoreState.lookup] at h
  cases hfind : s.entities.find? (fun e => e.1 == k && e.2.1 == id) with
  | none => rw [hfind] at h; simp at h
  | some e0 =>
      rw [hfind] at h
      simp only [Option.map_some', Option.some_bind] at h
      cases hfind2 : e0.2.2.find? (fun p => p.1 == f) with
      | none => rw [hfind2] at h; simp at h
      | some p0 =>
          rw [hfind2] at h
          simp only [Option.map_some', Option.some_inj] at h
          have hp0 : (p0.1 == f) = true := by
            have := List.find?_some hfind2
            simpa using this
          have hp0mem : p0 ∈ e0.2.2 := List.mem_of_find?_eq_some hfind2
          have he0 : (e0.1 == k && e0.2.1 == id) = true := by
            have := List.find?_some hfind
            simpa using this
          have he0mem : e0 ∈ s.entities := List.mem_of_find?_eq_some hfind
          refine ⟨e0, he0mem, ?_, ?_, ?_⟩
          · exact (by simpa using ((by simpa using he0 : e0.1 = k ∧ e0.2.1 = id)).1)
          · exact ((by simpa using he0 : e0.1 = k ∧ e0.2.1 = id)).2
          · refine List.any_eq_true.mpr ⟨p0, hp0mem, ?_⟩
            simp only [matchesPair]
            have : p0.2 = FieldValue.strV val := h
            simp [hp0, this]

theorem runQuery_ne_nil_of_fieldOf (s : StoreState) (k : EntityKind)
    (id : EntityId) (f val : String)
    (h : s.fieldOf k id f = some (FieldValue.strV val)) :
    s.runQuery ⟨k, EntityFilter.equalStr f val⟩ ≠ [] := by
  obtain ⟨e, he, hk, _, hm⟩ := fieldOf_gives_match s k id f val h
  exact runQuery_ne_nil_of_mem s ⟨k, EntityFilter.equalStr f val⟩ e he hk hm


theorem firstFailedAssert_createOps (s : StoreState) (n i : String) (t : Nat)
    (g : EntityId) (sch : Schema) (ch : Option BlockPtr) (nd : String) :
    firstFailedAssert s (createOps n i t g sch ch nd) =
      if s.runQuery (nameQuery n) = [] then
        if s.runQuery (versionQuery i) = [] then
          if s.runQuery (deploymentQuery i) = [] then none
          else some "Subgraph deployment entity must not exist"
        else some "Subgraph version should not exist"
      else some "Subgraph entity should not exist" := by
  simp only [createOps, SubgraphEntity.write_operations,
    SubgraphVersionEntity.write_operations,
    SubgraphEntity.update_pending_version_operations,
    SubgraphEntity.update_current_version_operations,
    SubgraphDeploymentEntity.create_operations,
    SubgraphDeploymentAssignmentEntity.write_operations, fakeManifest,
    List.cons_append, List.nil_append, firstFailedAssert, nameQuery, versionQuery,
    deploymentQuery, beq_iff_eq]

theorem createOps_lastWrites (n i : String) (t : Nat) (g : EntityId) (sch : Schema)
    (ch : Option BlockPtr) (nd : String) :
    lastWrite (createOps n i t g sch ch nd) EntityKind.subgraph g "id" =
        some (FieldValue.strV g) ∧
    lastWrite (createOps n i t g sch ch nd) EntityKind.subgraph g "name" =
        some (FieldValue.strV n) ∧
    lastWrite (createOps n i t g sch ch nd) EntityKind.subgraph g "currentVersion" =
        some (FieldValue.strV i) ∧
    lastWrite (createOps n i t g sch ch nd) EntityKind.subgraph g "pendingVersion" =
        some FieldValue.nullV ∧
    lastWrite (createOps n i t g sch ch nd) EntityKind.subgraph g "createdAt" =
        some (FieldValue.natV t) ∧
    lastWrite (createOps n i t g sch ch nd) EntityKind.version i "id" =
        some (FieldValue.strV i) ∧
    lastWrite (createOps n i t g sch ch nd) EntityKind.version i "subgraph" =
        some (FieldValue.strV g) ∧
    lastWrite (createOps n i t g sch ch nd) EntityKind.version i "deployment" =
        some (FieldValue.strV i) ∧
    lastWrite (createOps n i t g sch ch nd) EntityKind.version i "createdAt" =
        some (FieldValue.natV t) ∧
    lastWrite (createOps n i t g sch ch nd) EntityKind.deployment i "id" =
        some (FieldValue.strV i) ∧
    lastWrite (createOps n i t g sch ch nd) EntityKind.deployment i "manifestLocation" =
        some (FieldValue.strV n) ∧
    lastWrite (createOps n i t g sch ch nd) EntityKind.deployment i "schema" =
        some (FieldValue.schemaV sch) ∧
    lastWrite (createOps n i t g sch ch nd) EntityKind.deployment i "chainHeadBlock" =
        some (ptrOrNull ch) ∧
    lastWrite (createOps n i t g sch ch nd) EntityKind.deployment i "synced" =
        some (FieldValue.boolV false) ∧
    lastWrite (createOps n i t g sch ch nd) EntityKind.deployment i "failed" =
        some (FieldValue.boolV false) ∧
    lastWrite (createOps n i t g sch ch nd) EntityKind.assignment i "id" =
        some (FieldValue.strV i) ∧
    lastWrite (createOps n i t g sch ch nd) EntityKind.assignment i "nodeId" =
        some (FieldValue.strV nd) := by
  refine ⟨?_, ?_, ?_, ?_, ?_, ?_, ?_, ?_, ?_, ?_, ?_, ?_, ?_, ?_, ?_, ?_, ?_⟩ <;>
    simp [createOps, SubgraphEntity.write_operations,
      SubgraphVersionEntity.write_operations,
      SubgraphEntity.update_pending_version_operations,
      SubgraphEntity.update_current_version_operations,
      SubgraphDeploymentEntity.create_operations,
      SubgraphDeploymentAssignmentEntity.write_operations, fakeManifest,
      lastWrite, refOrNull]

theorem createOps_writesKeys (n i : String) (t : Nat) (g : EntityId) (sch : Schema)
    (ch : Option BlockPtr) (nd : String) :
    writesKey (createOps n i t g sch ch nd) EntityKind.subgraph g = true ∧
    writesKey (createOps n i t g sch ch nd) EntityKind.version i = true ∧
    writesKey (createOps n i t g sch ch nd) EntityKind.deployment i = true ∧
    writesKey (createOps n i t g sch ch nd) EntityKind.assignment i = true := by
  refine ⟨?_, ?_, ?_, ?_⟩ <;>
    simp [createOps, SubgraphEntity.write_operations,
      SubgraphVersionEntity.write_operations,
      SubgraphEntity.update_pending_version_operations,
      SubgraphEntity.update_current_version_operations,
      SubgraphDeploymentEntity.create_operations,
      SubgraphDeploymentAssignmentEntity.write_operations, fakeManifest,
      writesKey, List.any_cons]

theorem matchesFilter_of_fieldsLookup (fs : Fields) (f val : String)
    (h : fieldsLookup fs f = some (FieldValue.strV val)) :
    matchesFilter fs (EntityFilter.equalStr f val) = true := by
  simp only [fieldsLookup] at h
  cases hfind : fs.find? (fun p => p.1 == f) with
  | none => rw [hfind] at h; simp at h
  | some p0 =>
      rw [hfind] at h
      simp only [Option.map_some', Option.some_inj] at h
      have hp0 : (p0.1 == f) = true := by
        have := List.find?_some hfind
        simpa using this
      refine List.any_eq_true.mpr ⟨p0, List.mem_of_find?_eq_some hfind, ?_⟩
      simp [matchesPair, hp0, h]

theorem countOf_eq_zero_of_runQuery_nil (s : StoreState)
    (hwf_id : ∀ e ∈ s.entities, fieldsLookup e.2.2 "id" =
      some (FieldValue.strV e.2.1))
    (k : EntityKind) (i : String)
    (h : s.runQuery ⟨k, EntityFilter.equalStr "id" i⟩ = []) :
    s.countOf k i = 0 := by
  by_contra hne
  have hpos : 0 < (s.entities.filter (fun e => e.1 == k && e.2.1 == i)).length := by
    have : s.countOf k i ≠ 0 := hne
    simp only [StoreState.countOf] at this
    omega
  obtain ⟨e, he⟩ := List.exists_mem_of_length_pos hpos
  have hmem := (List.mem_filter.mp he).1
  have hpred := (List.mem_filter.mp he).2
  have hkid : e.1 = k ∧ e.2.1 = i := by simpa using hpred
  have hmf : matchesFilter e.2.2 (EntityFilter.equalStr "id" i) = true := by
    have := hwf_id e hmem
    rw [hkid.2] at this
    exact matchesFilter_of_fieldsLookup e.2.2 "id" i this
  exact runQuery_ne_nil_of_mem s ⟨k, EntityFilter.equalStr "id" i⟩ e hmem
    (by simp [hkid.1]) hmf h

theorem create_subgraph_eq (s : StoreState) (t : Nat) (g : EntityId) (sch : Schema)
    (chb : Option BlockPtr) (n i : String) (ioFail : Bool) :
    create_subgraph s (some t) g (some sch) true (Except.ok chb) n i ioFail =
      match firstFailedAssert s (createOps n i t g sch chb "__builtin") with
      | some d => (CreateOutcome.failed (CreateErr.preconditionViolated d), s)
      | none =>
          if ioFail then (CreateOutcome.failed CreateErr.storeFailure, s)
          else (CreateOutcome.committed,
            applyWrites s (createOps n i t g sch chb "__builtin")) := by
  simp only [create_subgraph, commitBatch]
  cases h : firstFailedAssert s (createOps n i t g sch chb "__builtin") with
  | some d => rfl
  | none => cases ioFail <;> rfl

/-- C1: All-or-nothing creation. For every invocation of `create_subgraph`
(with valid clock, schema and node id, on a well-formed store), if the
commit reports success then all four records exist (exactly one each for
the relevant keys) and their cross-references resolve: the OwningRecord's
`currentVersion` points to the VersionRecord (keyed by the deployment id),
whose `deployment` reference points to the DeploymentRecord, which has
exactly one AssignmentRecord; if the invocation does not commit, the store
state is unchanged — no record is created or modified. -/
theorem create_subgraph_all_or_nothing (s : StoreState) (t : Nat) (g : EntityId)
    (sch : Schema) (ch : Except StoreError (Option BlockPtr))
    (n i : String) (ioFail : Bool)
    (hwf_uniq : ∀ k id, s.countOf k id ≤ 1)
    (hwf_id : ∀ e ∈ s.entities, fieldsLookup e.2.2 "id" =
      some (FieldValue.strV e.2.1)) :
    ((create_subgraph s (some t) g (some sch) true ch n i ioFail).1 =
        CreateOutcome.committed →
      ((create_subgraph s (some t) g (some sch) true ch n i ioFail).2.countOf
          EntityKind.subgraph g = 1 ∧
       (create_subgraph s (some t) g (some sch) true ch n i ioFail).2.fieldOf
          EntityKind.subgraph g "currentVersion" = some (FieldValue.strV i) ∧
       (create_subgraph s (some t) g (some sch) true ch n i ioFail).2.fieldOf
          EntityKind.subgraph g "pendingVersion" = some FieldValue.nullV ∧
       (create_subgraph s (some t) g (some sch) true ch n i ioFail).2.countOf
          EntityKind.version i = 1 ∧
       (create_subgraph s (some t) g (some sch) true ch n i ioFail).2.fieldOf
          EntityKind.version i "deployment" = some (FieldValue.strV i) ∧
       (create_subgraph s (some t) g (some sch) true ch n i ioFail).2.fieldOf
          EntityKind.version i "subgraph" = some (FieldValue.strV g) ∧
       (create_subgraph s (some t) g (some sch) true ch n i ioFail).2.countOf
          EntityKind.deployment i = 1 ∧
       (create_subgraph s (some t) g (some sch) true ch n i ioFail).2.countOf
          EntityKind.assignment i = 1)) ∧
    ((create_subgraph s (some t) g (some sch) true ch n i ioFail).1 ≠
        CreateOutcome.committed →
      (create_subgraph s (some t) g (some sch) true ch n i ioFail).2 = s) := by
  cases ch with
  | error e =>
      constructor
      · intro hcom
        simp [create_subgraph] at hcom
      · intro _
        simp [create_subgraph]
  | ok chb =>
      rw [create_subgraph_eq]
      cases hfa : firstFailedAssert s (createOps n i t g sch chb "__builtin") with
      | some d =>
          constructor
          · intro hcom; simp at hcom
          · intro _; rfl
      | none =>
          cases ioFail with
          | true =>
              constructor
              · intro hcom; simp at hcom
              · intro _; rfl
          | false =>
              have hq : s.runQuery (nameQuery n) = [] ∧
                  s.runQuery (versionQuery i) = [] ∧
                  s.runQuery (deploymentQuery i) = [] := by
                rw [firstFailedAssert_createOps] at hfa
                by_cases h1 : s.runQuery (nameQuery n) = []
                · by_cases h2 : s.runQuery (versionQuery i) = []
                  · by_cases h3 : s.runQuery (deploymentQuery i) = []
                    · exact ⟨h1, h2, h3⟩
                    · rw [if_pos h1, if_pos h2, if_neg h3] at hfa
                      exact absurd hfa (by simp)
                  · rw [if_pos h1, if_neg h2] at hfa
                    exact absurd hfa (by simp)
                · rw [if_neg h1] at hfa
                  exact absurd hfa (by simp)
              obtain ⟨hq1, hq2, hq3⟩ := hq
              have hv0 : s.countOf EntityKind.version i = 0 :=
                countOf_eq_zero_of_runQuery_nil s hwf_id EntityKind.version i
                  (by simpa [versionQuery, SubgraphVersionEntity.query] using hq2)
              have hd0 : s.countOf EntityKind.deployment i = 0 :=
                countOf_eq_zero_of_runQuery_nil s hwf_id EntityKind.deployment i
                  (by simpa [deploymentQuery, SubgraphDeploymentEntity.query] using hq3)
              obtain ⟨_, _, lw_cv, lw_pv, _, _, lw_vs, lw_vd, _, _, _, _, _, _, _,
                _, _⟩ := createOps_lastWrites n i t g sch chb "__builtin"
              obtain ⟨wk1, wk2, wk3, wk4⟩ := createOps_writesKeys n i t g sch chb "__builtin"
              constructor
              · intro _
                refine ⟨?_, ?_, ?_, ?_, ?_, ?_, ?_, ?_⟩
                · show (applyWrites s (createOps n i t g sch chb "__builtin")).countOf
                    EntityKind.subgraph g = 1
                  rw [countOf_applyWrites, wk1]
                  have hu := hwf_uniq EntityKind.subgraph g
                  by_cases h0 : s.countOf EntityKind.subgraph g = 0
                  · simp [h0]
                  · have hd : (decide (s.countOf EntityKind.subgraph g = 0)) = false := by
                      simp [h0]
                    rw [hd]
                    simp only [Bool.and_false, Bool.false_eq_true, if_false]
                    omega
                · exact fieldOf_applyWrites_of_lastWrite_some _ _ _ _ _ _ lw_cv
                · exact fieldOf_applyWrites_of_lastWrite_some _ _ _ _ _ _ lw_pv
                · show (applyWrites s (createOps n i t g sch chb "__builtin")).countOf
                    EntityKind.version i = 1
                  rw [countOf_applyWrites, wk2]
                  simp [hv0]
                · exact fieldOf_applyWrites_of_lastWrite_some _ _ _ _ _ _ lw_vd
                · exact fieldOf_applyWrites_of_lastWrite_some _ _ _ _ _ _ lw_vs
                · show (applyWrites s (createOps n i t g sch chb "__builtin")).countOf
                    EntityKind.deployment i = 1
                  rw [countOf_applyWrites, wk3]
                  simp [hd0]
                · show (applyWrites s (createOps n i t g sch chb "__builtin")).countOf
                    EntityKind.assignment i = 1
                  rw [countOf_applyWrites, wk4]
                  have hu := hwf_uniq EntityKind.assignment i
                  by_cases h0 : s.countOf EntityKind.assignment i = 0
                  · simp [h0]
                  · have hd : (decide (s.countOf EntityKind.assignment i = 0)) = false := by
                      simp [h0]
                    rw [hd]
                    simp only [Bool.and_false, Bool.false_eq_true, if_false]
                    omega
              · intro hne
                exact absurd rfl hne

/-- Witness for C1: a successful run on the empty store, at concrete inputs,
yields exactly one VersionRecord keyed by the deployment id. -/
theorem create_subgraph_all_or_nothing_witness :
    (create_subgraph emptyStore (some 100) "sg-key-1"
        (some ⟨"type Block @entity", "dep-123"⟩) true
        (Except.ok (some ⟨7, "0xabc"⟩)) "chain/mainnet" "dep-123"
        false).2.countOf EntityKind.version "dep-123" = 1 :=
  ((create_subgraph_all_or_nothing emptyStore 100 "sg-key-1"
      ⟨"type Block @entity", "dep-123"⟩ (Except.ok (some ⟨7, "0xabc"⟩))
      "chain/mainnet" "dep-123" false
      (fun k id => by simp [emptyStore, StoreState.countOf])
      (fun e he => by simp [emptyStore] at he)).1 (by decide)).2.2.2.1


/-- C2: Batch construction order. Every batch built by `create_subgraph`
is, in order: the OwningRecord Assert; the OwningRecord Writes (fresh key,
`createdAt` = clock seconds, both version pointers null); the VersionRecord
Assert; the VersionRecord Writes; the pointer-update Writes; the
DeploymentRecord Assert; the DeploymentRecord Writes; the AssignmentRecord
Writes — with exactly three Asserts in total. -/
theorem create_subgraph_batch_order (n i : String) (t : Nat) (g : EntityId)
    (sch : Schema) (ch : Option BlockPtr) (nd : String) :
    createOps n i t g sch ch nd =
      [MetadataOperation.abortUnless "Subgraph entity should not exist"
          (nameQuery n) []]
      ++ [MetadataOperation.set EntityKind.subgraph g "id" (FieldValue.strV g),
          MetadataOperation.set EntityKind.subgraph g "name" (FieldValue.strV n),
          MetadataOperation.set EntityKind.subgraph g "currentVersion"
            FieldValue.nullV,
          MetadataOperation.set EntityKind.subgraph g "pendingVersion"
            FieldValue.nullV,
          MetadataOperation.set EntityKind.subgraph g "createdAt"
            (FieldValue.natV t)]
      ++ [MetadataOperation.abortUnless "Subgraph version should not exist"
          (versionQuery i) []]
      ++ [MetadataOperation.set EntityKind.version i "id" (FieldValue.strV i),
          MetadataOperation.set EntityKind.version i "subgraph" (FieldValue.strV g),
          MetadataOperation.set EntityKind.version i "deployment"
            (FieldValue.strV i),
          MetadataOperation.set EntityKind.version i "createdAt"
            (FieldValue.natV t)]
      ++ [MetadataOperation.set EntityKind.subgraph g "pendingVersion"
            FieldValue.nullV,
          MetadataOperation.set EntityKind.subgraph g "currentVersion"
            (FieldValue.strV i)]
      ++ [MetadataOperation.abortUnless "Subgraph deployment entity must not exist"
          (deploymentQuery i) []]
      ++ [MetadataOperation.set EntityKind.deployment i "id" (FieldValue.strV i),
          MetadataOperation.set EntityKind.deployment i "manifestLocation"
            (FieldValue.strV n),
          MetadataOperation.set EntityKind.deployment i "schema"
            (FieldValue.schemaV sch),
          MetadataOperation.set EntityKind.deployment i "chainHeadBlock"
            (ptrOrNull ch),
          MetadataOperation.set EntityKind.deployment i "synced"
            (FieldValue.boolV false),
          MetadataOperation.set EntityKind.deployment i "failed"
            (FieldValue.boolV false)]
      ++ [MetadataOperation.set EntityKind.assignment i "id" (FieldValue.strV i),
          MetadataOperation.set EntityKind.assignment i "nodeId"
            (FieldValue.strV nd)] ∧
    ((createOps n i t g sch ch nd).filter MetadataOperation.isAssert).length = 3 :=
  ⟨rfl, rfl⟩

theorem lookup_isSome_iff (s : StoreState) (k : EntityKind) (id : EntityId) :
    (s.lookup k id).isSome = true ↔ s.countOf k id ≠ 0 := by
  rw [← hasEntity_true_iff]
  simp only [StoreState.lookup, StoreState.hasEntity]
  cases hfind : s.entities.find? (fun e => e.1 == k && e.2.1 == id) with
  | none =>
      simp only [hfind, Option.map_none', Option.isSome_none]
      constructor
      · intro h; exact absurd h (by simp)
      · intro h
        exfalso
        obtain ⟨x, hx, hpx⟩ := List.any_eq_true.mp h
        rw [List.find?_eq_none] at hfind
        exact absurd hpx (by simpa using hfind x hx)
  | some e =>
      simp only [hfind, Option.map_some', Option.isSome_some, true_iff]
      refine List.any_eq_true.mpr ⟨e, List.mem_of_find?_eq_some hfind, ?_⟩
      have := List.find?_some hfind
      simpa using this

/-- C3: Existence Check correctness. `check_subgraph_exists` returns
`Ok true` iff a DeploymentRecord with the given id currently exists
(`Ok false` otherwise), performs no mutation (it is a pure read returning
no state), and when the underlying store read fails it returns that
`StoreError` rather than treating the error as "not found". -/
theorem check_subgraph_exists_correct (s : StoreState) (i : String) :
    check_subgraph_exists s none i =
      Except.ok ((s.lookup EntityKind.deployment i).isSome) ∧
    ((s.lookup EntityKind.deployment i).isSome = true ↔
      s.countOf EntityKind.deployment i ≠ 0) ∧
    (∀ e : StoreError, check_subgraph_exists s (some e) i = Except.error e) := by
  refine ⟨?_, lookup_isSome_iff s EntityKind.deployment i, fun e => rfl⟩
  simp only [check_subgraph_exists, Store.get, SubgraphDeploymentEntity.key]
  cases h : s.lookup EntityKind.deployment i <;> simp [Except.map, h]

/-- C4: Version/deployment identity collapse. In every batch built by
`create_subgraph`, every VersionRecord Write is keyed by the deployment id
string, the VersionRecord Writes reference the freshly generated
OwningRecord key as owner and the deployment id as deployment reference,
and the version Assert guards the deployment id as the version key. -/
theorem create_subgraph_version_identity (n i : String) (t : Nat) (g : EntityId)
    (sch : Schema) (ch : Option BlockPtr) (nd : String) :
    (∀ key f v, MetadataOperation.set EntityKind.version key f v ∈
        createOps n i t g sch ch nd → key = i) ∧
    MetadataOperation.set EntityKind.version i "subgraph" (FieldValue.strV g) ∈
      createOps n i t g sch ch nd ∧
    MetadataOperation.set EntityKind.version i "deployment" (FieldValue.strV i) ∈
      createOps n i t g sch ch nd ∧
    MetadataOperation.abortUnless "Subgraph version should not exist"
      (versionQuery i) [] ∈ createOps n i t g sch ch nd := by
  refine ⟨?_, ?_, ?_, ?_⟩
  · intro key f v hmem
    simp only [createOps, SubgraphEntity.write_operations,
      SubgraphVersionEntity.write_operations,
      SubgraphEntity.update_pending_version_operations,
      SubgraphEntity.update_current_version_operations,
      SubgraphDeploymentEntity.create_operations,
      SubgraphDeploymentAssignmentEntity.write_operations, fakeManifest, refOrNull,
      List.cons_append, List.nil_append, List.mem_cons, List.not_mem_nil,
      or_false] at hmem
    rcases hmem with h | h | h | h | h | h | h | h | h | h | h | h | h | h | h |
      h | h | h | h | h | h | h <;> simp at h <;> try exact h.1
  · simp [createOps, SubgraphVersionEntity.write_operations]
  · simp [createOps, SubgraphVersionEntity.write_operations]
  · simp [createOps, versionQuery]

/-- C5: Immediate promotion. The batch built by `create_subgraph` itself
contains the pointer-update Writes setting the OwningRecord's
`pendingVersion` to null and its `currentVersion` to the new VersionRecord
key, and after applying that single batch (from any pre-state) the new
version is current and no pending version is observable. -/
theorem create_subgraph_immediate_promotion (n i : String) (t : Nat)
    (g : EntityId) (sch : Schema) (ch : Option BlockPtr) (nd : String) :
    MetadataOperation.set EntityKind.subgraph g "pendingVersion"
      FieldValue.nullV ∈ createOps n i t g sch ch nd ∧
    MetadataOperation.set EntityKind.subgraph g "currentVersion"
      (FieldValue.strV i) ∈ createOps n i t g sch ch nd ∧
    ∀ s : StoreState,
      (applyWrites s (createOps n i t g sch ch nd)).fieldOf EntityKind.subgraph g
          "currentVersion" = some (FieldValue.strV i) ∧
      (applyWrites s (createOps n i t g sch ch nd)).fieldOf EntityKind.subgraph g
          "pendingVersion" = some FieldValue.nullV := by
  obtain ⟨_, _, lw_cv, lw_pv, _, _, _, _, _, _, _, _, _, _, _, _, _⟩ :=
    createOps_lastWrites n i t g sch ch nd
  refine ⟨?_, ?_, fun s => ⟨?_, ?_⟩⟩
  · simp [createOps, SubgraphEntity.update_pending_version_operations, refOrNull]
  · simp [createOps, SubgraphEntity.update_current_version_operations, refOrNull]
  · exact fieldOf_applyWrites_of_lastWrite_some _ _ _ _ _ _ lw_cv
  · exact fieldOf_applyWrites_of_lastWrite_some _ _ _ _ _ _ lw_pv

/-- C6: Deployment and assignment contents. In every batch built by
`create_subgraph`, the DeploymentRecord is created with `synced = false`,
`failed = false`, the chain-head pointer obtained from the chain store and
the built-in schema; the AssignmentRecord is keyed by the deployment id and
binds it to the fixed default worker identifier `"__builtin"`; and after
applying the batch those field values are stored. -/
theorem create_subgraph_deployment_assignment (n i : String) (t : Nat)
    (g : EntityId) (sch : Schema) (ch : Option BlockPtr) :
    MetadataOperation.set EntityKind.deployment i "synced"
      (FieldValue.boolV false) ∈ createOps n i t g sch ch "__builtin" ∧
    MetadataOperation.set EntityKind.deployment i "failed"
      (FieldValue.boolV false) ∈ createOps n i t g sch ch "__builtin" ∧
    MetadataOperation.set EntityKind.deployment i "chainHeadBlock"
      (ptrOrNull ch) ∈ createOps n i t g sch ch "__builtin" ∧
    MetadataOperation.set EntityKind.deployment i "schema"
      (FieldValue.schemaV sch) ∈ createOps n i t g sch ch "__builtin" ∧
    MetadataOperation.set EntityKind.assignment i "nodeId"
      (FieldValue.strV "__builtin") ∈ createOps n i t g sch ch "__builtin" ∧
    (∀ key f v, MetadataOperation.set EntityKind.assignment key f v ∈
        createOps n i t g sch ch "__builtin" → key = i) ∧
    ∀ s : StoreState,
      (applyWrites s (createOps n i t g sch ch "__builtin")).fieldOf
          EntityKind.deployment i "synced" = some (FieldValue.boolV false) ∧
      (applyWrites s (createOps n i t g sch ch "__builtin")).fieldOf
          EntityKind.deployment i "failed" = some (FieldValue.boolV false) ∧
      (applyWrites s (createOps n i t g sch ch "__builtin")).fieldOf
          EntityKind.deployment i "chainHeadBlock" = some (ptrOrNull ch) ∧
      (applyWrites s (createOps n i t g sch ch "__builtin")).fieldOf
          EntityKind.deployment i "schema" = some (FieldValue.schemaV sch) ∧
      (applyWrites s (createOps n i t g sch ch "__builtin")).fieldOf
          EntityKind.assignment i "nodeId" = some (FieldValue.strV "__builtin") := by
  obtain ⟨_, _, _, _, _, _, _, _, _, _, _, lw_sch, lw_chb, lw_syn, lw_fld, _,
    lw_nid⟩ := createOps_lastWrites n i t g sch ch "__builtin"
  refine ⟨?_, ?_, ?_, ?_, ?_, ?_, fun s => ⟨?_, ?_, ?_, ?_, ?_⟩⟩
  · simp [createOps, SubgraphDeploymentEntity.create_operations, fakeManifest]
  · simp [createOps, SubgraphDeploymentEntity.create_operations, fakeManifest]
  · simp [createOps, SubgraphDeploymentEntity.create_operations, fakeManifest]
  · simp [createOps, SubgraphDeploymentEntity.create_operations, fakeManifest]
  · simp [createOps, SubgraphDeploymentAssignmentEntity.write_operations]
  · intro key f v hmem
    simp only [createOps, SubgraphEntity.write_operations,
      SubgraphVersionEntity.write_operations,
      SubgraphEntity.update_pending_version_operations,
      SubgraphEntity.update_current_version_operations,
      SubgraphDeploymentEntity.create_operations,
      SubgraphDeploymentAssignmentEntity.write_operations, fakeManifest, refOrNull,
      List.cons_append, List.nil_append, List.mem_cons, List.not_mem_nil,
      or_false] at hmem
    rcases hmem with h | h | h | h | h | h | h | h | h | h | h | h | h | h | h |
      h | h | h | h | h | h | h <;> simp at h <;> try exact h.1
  · exact fieldOf_applyWrites_of_lastWrite_some _ _ _ _ _ _ lw_syn
  · exact fieldOf_applyWrites_of_lastWrite_some _ _ _ _ _ _ lw_fld
  · exact fieldOf_applyWrites_of_lastWrite_some _ _ _ _ _ _ lw_chb
  · exact fieldOf_applyWrites_of_lastWrite_some _ _ _ _ _ _ lw_sch
  · exact fieldOf_applyWrites_of_lastWrite_some _ _ _ _ _ _ lw_nid

/-- C7: Chain-head failure atomicity. When the chain store's
current-head-pointer read fails, `create_subgraph` returns that underlying
error immediately (regardless of node-id validity, which the source checks
only later), the commit entry point is never reached, and the store state
is unchanged. -/
theorem create_subgraph_chain_head_failure (s : StoreState) (t : Nat)
    (g : EntityId) (sch : Schema) (b : Bool) (e : StoreError) (n i : String)
    (ioFail : Bool) :
    create_subgraph s (some t) g (some sch) b (Except.error e) n i ioFail =
      (CreateOutcome.failed (CreateErr.chainHeadErr e), s) := rfl

/-- C8: Duplicate rejection. Against a store honoring the Assert contract,
calling `create_subgraph` twice with the same (name, deployment id) — from
a state with no matching records — succeeds on the first call and fails on
the second with a PreconditionViolated error whose description is that of
the first Assert evaluated (the OwningRecord check), which mentions
"should not exist". -/
theorem create_subgraph_duplicate_rejection (s : StoreState) (t1 t2 : Nat)
    (g1 g2 : EntityId) (sch1 sch2 : Schema) (ch1 ch2 : Option BlockPtr)
    (n i : String)
    (h1 : s.runQuery (nameQuery n) = [])
    (h2 : s.runQuery (versionQuery i) = [])
    (h3 : s.runQuery (deploymentQuery i) = []) :
    (create_subgraph s (some t1) g1 (some sch1) true (Except.ok ch1) n i
        false).1 = CreateOutcome.committed ∧
    (create_subgraph
        (create_subgraph s (some t1) g1 (some sch1) true (Except.ok ch1) n i
          false).2
        (some t2) g2 (some sch2) true (Except.ok ch2) n i false).1 =
      CreateOutcome.failed (CreateErr.preconditionViolated
        "Subgraph entity should not exist") ∧
    (∃ pre post : String,
      "Subgraph entity should not exist" = pre ++ "should not exist" ++ post) := by
  have hfa1 : firstFailedAssert s (createOps n i t1 g1 sch1 ch1 "__builtin") =
      none := by
    rw [firstFailedAssert_createOps, if_pos h1, if_pos h2, if_pos h3]
  have hstate : create_subgraph s (some t1) g1 (some sch1) true (Except.ok ch1)
      n i false =
      (CreateOutcome.committed,
        applyWrites s (createOps n i t1 g1 sch1 ch1 "__builtin")) := by
    rw [create_subgraph_eq, hfa1]
    rfl
  refine ⟨by rw [hstate], ?_, ⟨"Subgraph entity ", "", by decide⟩⟩
  rw [hstate]
  obtain ⟨_, lw_name, _⟩ := createOps_lastWrites n i t1 g1 sch1 ch1 "__builtin"
  have hname : (applyWrites s (createOps n i t1 g1 sch1 ch1 "__builtin")).fieldOf
      EntityKind.subgraph g1 "name" = some (FieldValue.strV n) :=
    fieldOf_applyWrites_of_lastWrite_some _ _ _ _ _ _ lw_name
  have hne : (applyWrites s (createOps n i t1 g1 sch1 ch1 "__builtin")).runQuery
      (nameQuery n) ≠ [] := by
    simpa [nameQuery, SubgraphEntity.query] using
      runQuery_ne_nil_of_fieldOf _ EntityKind.subgraph g1 "name" n hname
  rw [create_subgraph_eq, firstFailedAssert_createOps, if_neg hne]

/-- Witness for C8 at concrete inputs: the second identical call fails on
the OwningRecord Assert. -/
theorem create_subgraph_duplicate_rejection_witness :
    (create_subgraph
        (create_subgraph emptyStore (some 1) "k1" (some ⟨"s", "dep-123"⟩) true
          (Except.ok none) "chain/mainnet" "dep-123" false).2
        (some 2) "k2" (some ⟨"s", "dep-123"⟩) true (Except.ok none)
        "chain/mainnet" "dep-123" false).1 =
      CreateOutcome.failed (CreateErr.preconditionViolated
        "Subgraph entity should not exist") :=
  (create_subgraph_duplicate_rejection emptyStore 1 2 "k1" "k2" ⟨"s", "dep-123"⟩
    ⟨"s", "dep-123"⟩ none none "chain/mainnet" "dep-123" rfl rfl rfl).2.1

/-- C9: Concurrent creation race. Under the store contract that commits are
atomic and isolated (so any concurrent execution is equivalent to some
serialization of the two commits), two `create_subgraph` invocations that
share the name or the deployment id, starting from a state where the first
can succeed, yield exactly one success: the first-serialized commit
succeeds and the other fails on an Assert with a PreconditionViolated
error (the OwningRecord or the VersionRecord check, whichever is evaluated
first); instantiating the theorem with the two invocations swapped covers
the other serialization order. -/
theorem create_subgraph_concurrent_race (s : StoreState) (t1 t2 : Nat)
    (g1 g2 : EntityId) (sch1 sch2 : Schema) (ch1 ch2 : Option BlockPtr)
    (n1 i1 n2 i2 : String)
    (hsame : n1 = n2 ∨ i1 = i2)
    (hq1 : s.runQuery (nameQuery n1) = [])
    (hq2 : s.runQuery (versionQuery i1) = [])
    (hq3 : s.runQuery (deploymentQuery i1) = []) :
    (create_subgraph s (some t1) g1 (some sch1) true (Except.ok ch1) n1 i1
        false).1 = CreateOutcome.committed ∧
    ∃ d, (create_subgraph
        (create_subgraph s (some t1) g1 (some sch1) true (Except.ok ch1) n1 i1
          false).2
        (some t2) g2 (some sch2) true (Except.ok ch2) n2 i2 false).1 =
          CreateOutcome.failed (CreateErr.preconditionViolated d) ∧
      (d = "Subgraph entity should not exist" ∨
       d = "Subgraph version should not exist") := by
  have hfa1 : firstFailedAssert s (createOps n1 i1 t1 g1 sch1 ch1 "__builtin") =
      none := by
    rw [firstFailedAssert_createOps, if_pos hq1, if_pos hq2, if_pos hq3]
  have hstate : create_subgraph s (some t1) g1 (some sch1) true (Except.ok ch1)
      n1 i1 false =
      (CreateOutcome.committed,
        applyWrites s (createOps n1 i1 t1 g1 sch1 ch1 "__builtin")) := by
    rw [create_subgraph_eq, hfa1]
    rfl
  refine ⟨by rw [hstate], ?_⟩
  rw [hstate]
  obtain ⟨_, lw_name, _, _, _, lw_vid, _⟩ :=
    createOps_lastWrites n1 i1 t1 g1 sch1 ch1 "__builtin"
  rw [create_subgraph_eq, firstFailedAssert_createOps]
  by_cases hn : (applyWrites s
      (createOps n1 i1 t1 g1 sch1 ch1 "__builtin")).runQuery (nameQuery n2) = []
  · have hii : i1 = i2 := by
      rcases hsame with hnn | hii
      · exfalso
        have hname : (applyWrites s
            (createOps n1 i1 t1 g1 sch1 ch1 "__builtin")).fieldOf
            EntityKind.subgraph g1 "name" = some (FieldValue.strV n2) := by
          rw [← hnn]
          exact fieldOf_applyWrites_of_lastWrite_some _ _ _ _ _ _ lw_name
        have hne2 : (applyWrites s
            (createOps n1 i1 t1 g1 sch1 ch1 "__builtin")).runQuery
            (nameQuery n2) ≠ [] := by
          simpa [nameQuery, SubgraphEntity.query] using
            runQuery_ne_nil_of_fieldOf _ EntityKind.subgraph g1 "name" n2 hname
        exact hne2 hn
      · exact hii
    have hvid : (applyWrites s
        (createOps n1 i1 t1 g1 sch1 ch1 "__builtin")).fieldOf
        EntityKind.version i1 "id" = some (FieldValue.strV i2) := by
      rw [← hii]
      exact fieldOf_applyWrites_of_lastWrite_some _ _ _ _ _ _ lw_vid
    have hver : (applyWrites s
        (createOps n1 i1 t1 g1 sch1 ch1 "__builtin")).runQuery
        (versionQuery i2) ≠ [] := by
      simpa [versionQuery, SubgraphVersionEntity.query] using
        runQuery_ne_nil_of_fieldOf _ EntityKind.version i1 "id" i2 hvid
    rw [if_pos hn, if_neg hver]
    exact ⟨"Subgraph version should not exist", rfl, Or.inr rfl⟩
  · rw [if_neg hn]
    exact ⟨"Subgraph entity should not exist", rfl, Or.inl rfl⟩

/-- Witness for C9 at concrete inputs: same deployment id under two
different names — the first invocation commits, the second fails on the
VersionRecord Assert. -/
theorem create_subgraph_concurrent_race_witness :
    ∃ d, (create_subgraph
        (create_subgraph emptyStore (some 1) "k1" (some ⟨"s", "dep-1"⟩) true
          (Except.ok none) "chain/mainnet" "dep-1" false).2
        (some 2) "k2" (some ⟨"s", "dep-1"⟩) true (Except.ok none)
        "chain/other" "dep-1" false).1 =
          CreateOutcome.failed (CreateErr.preconditionViolated d) ∧
      (d = "Subgraph entity should not exist" ∨
       d = "Subgraph version should not exist") :=
  (create_subgraph_concurrent_race emptyStore 1 2 "k1" "k2" ⟨"s", "dep-1"⟩
    ⟨"s", "dep-1"⟩ none none "chain/mainnet" "dep-1" "chain/other" "dep-1"
    (Or.inr rfl) rfl rfl rfl).2

/-- C10: Panic (not error-return) branches. `create_subgraph` panics when
the clock reads before the Unix epoch, when the built-in schema fails to
parse (even if the chain-head read would also fail — the parse comes
first), or when the node id `"__builtin"` is rejected (checked only after
a successful chain-head read); with a valid clock, schema and node id no
panic is reachable and the only outcomes are a successful commit, the
chain-head read error, or a commit failure (precondition violation or
underlying store failure). -/
theorem create_subgraph_panic_paths (s : StoreState) (t : Nat) (g : EntityId)
    (sch : Schema) (ch : Option BlockPtr) (n i : String) (ioFail : Bool)
    (e : StoreError) :
    ((create_subgraph s none g (some sch) true (Except.ok ch) n i ioFail).1 =
      CreateOutcome.panicked "called Result.unwrap on an Err value") ∧
    ((create_subgraph s (some t) g none true (Except.error e) n i ioFail).1 =
      CreateOutcome.panicked "valid Ethereum network subgraph schema") ∧
    ((create_subgraph s (some t) g (some sch) false (Except.ok ch) n i
        ioFail).1 = CreateOutcome.panicked "called Result.unwrap on an Err value") ∧
    ((create_subgraph s (some t) g (some sch) false (Except.error e) n i
        ioFail).1 = CreateOutcome.failed (CreateErr.chainHeadErr e)) ∧
    (∀ m, (create_subgraph s (some t) g (some sch) true (Except.ok ch) n i
        ioFail).1 ≠ CreateOutcome.panicked m) ∧
    ((create_subgraph s (some t) g (some sch) true (Except.error e) n i
        ioFail).1 = CreateOutcome.failed (CreateErr.chainHeadErr e)) ∧
    ((create_subgraph s (some t) g (some sch) true (Except.ok ch) n i ioFail).1 =
        CreateOutcome.committed ∨
      (∃ d, (create_subgraph s (some t) g (some sch) true (Except.ok ch) n i
          ioFail).1 = CreateOutcome.failed (CreateErr.preconditionViolated d)) ∨
      (create_subgraph s (some t) g (some sch) true (Except.ok ch) n i
          ioFail).1 = CreateOutcome.failed CreateErr.storeFailure) := by
  refine ⟨rfl, rfl, rfl, rfl, ?_, rfl, ?_⟩
  · intro m
    rw [create_subgraph_eq]
    cases hfa : firstFailedAssert s (createOps n i t g sch ch "__builtin") with
    | some d => simp
    | none => cases ioFail <;> simp
  · rw [create_subgraph_eq]
    cases hfa : firstFailedAssert s (createOps n i t g sch ch "__builtin") with
    | some d => exact Or.inr (Or.inl ⟨d, rfl⟩)
    | none =>
        cases ioFail with
        | true => exact Or.inr (Or.inr rfl)
        | false => exact Or.inl rfl
